import Mathlib

/-!
# Verification of the routing core of `smart_support_bot.py`

Shallow embedding of the message-routing policy of the repository's single
source file `src/smart_support_bot.py`: the pure text classifiers
(`is_order_intent`, `extract_order_id`, `is_negative_or_offensive`,
`match_faq`), the tool-enablement gate (`_order_tool_enabled`, embedded here
as `order_tool_enabled`), and the routing entry point `handle_user_message`.

Strings are Lean `String`s; Python's `str.lower()` / `str.upper()` are
modelled as the per-character maps `pyLower` / `pyUpper` (faithful on the
ASCII texts this program manipulates).  The regular expressions of the source
all have the shape `\b(w1|w2|...)\b` over literal alternatives, so regex
matching is embedded as word-boundary-delimited literal search
(`reWordSearch`), with `\w` modelled as ASCII alphanumeric or underscore.
-/

namespace SmartSupportBot

/-- Python `str.lower()` (per-character; faithful for ASCII input). -/
def pyLower (s : String) : String := String.mk (s.data.map Char.toLower)

/-- Python `str.upper()` (per-character; faithful for ASCII input). -/
def pyUpper (s : String) : String := String.mk (s.data.map Char.toUpper)

/-- Regex `\w`: ASCII letter, digit or underscore. -/
def isWordChar (c : Char) : Bool := c.isAlphanum || c = '_'

/-- Whether the character at position `p` of `s` is a word character
(out-of-range counts as a non-word character, as at the ends of a string
for regex `\b`). -/
def wordCharAt (s : List Char) (p : Nat) : Bool :=
  match s.get? p with
  | some c => isWordChar c
  | none => false

/-- Regex word boundary `\b` at position `p` of `s`: the word-character
status changes between positions `p - 1` and `p` (positions outside the
string count as non-word). -/
def boundaryAt (s : List Char) (p : Nat) : Bool :=
  (if p = 0 then false else wordCharAt s (p - 1)) != wordCharAt s p

/-- The literal `w` occurs in `s` starting at index `i`. -/
def occursAt (s w : List Char) (i : Nat) : Bool := w.isPrefixOf (s.drop i)

/-- The literal `w` occurs at index `i` of `s` with regex word boundaries
`\b` on both sides. -/
def wordMatchAt (s w : List Char) (i : Nat) : Bool :=
  occursAt s w i && boundaryAt s i && boundaryAt s (i + w.length)

/-- Embedding of `re.search(r"\b" + w + r"\b", t) is not None` for a
literal word `w`. -/
def reWordSearch (t : String) (w : String) : Bool :=
  (List.range (t.data.length + 1)).any (fun i => wordMatchAt t.data w.data i)

/-- Python `needle in hay` on strings: substring containment. -/
def strContains (hay needle : String) : Bool :=
  (List.range (hay.data.length + 1)).any (fun i => occursAt hay.data needle.data i)

/-- Source `OFFENSIVE_PATTERNS`: each regex `\b(a|b|...)\b` is embedded as
its list of literal alternatives; `f\*?ck` expands to the two literals
`fck` and `f*ck`, and similarly for the other optional-asterisk patterns. -/
def OFFENSIVE_PATTERNS : List (List String) :=
  [["dumb", "stupid", "idiot", "shut up", "hate", "useless"],
   ["fck", "f*ck", "sit", "s*it", "btch", "b*tch", "ashole", "a*shole"]]

/-- Source `NEGATIVE_SENTIMENT_PATTERNS`, expanded the same way. -/
def NEGATIVE_SENTIMENT_PATTERNS : List (List String) :=
  [["angry", "furious", "terrible", "awful", "worst", "hate", "refund now"],
   ["complain", "complaint", "speak to manager", "not happy", "disappointed"]]

/-- Source `is_order_intent`: the lower-cased text contains "order",
"track" or "status" as a substring. -/
def is_order_intent (text : String) : Bool :=
  let t := pyLower text
  strContains t "order" || strContains t "track" || strContains t "status"

/-- Source `is_negative_or_offensive`: some pattern of
`OFFENSIVE_PATTERNS + NEGATIVE_SENTIMENT_PATTERNS` matches the lower-cased
text (i.e. some literal alternative occurs with word boundaries). -/
def is_negative_or_offensive (text : String) : Bool :=
  let t := pyLower text
  (OFFENSIVE_PATTERNS ++ NEGATIVE_SENTIMENT_PATTERNS).any
    (fun alts => alts.any (fun w => reWordSearch t w))

/-- Source FAQ table `FAQS` (insertion order preserved). -/
def FAQS : List (String × String) :=
  [("return policy",
    "You can return unopened items within 30 days for a full refund."),
   ("shipping time",
    "Standard shipping takes 3–5 business days. Expedited options are available."),
   ("warranty",
    "All electronics include a 1-year limited warranty covering manufacturing defects.")]

/-- Source `match_faq`: first topic (in table order) whose key is a
substring of the lower-cased text; its answer, else `none`. -/
def match_faq (text : String) : Option String :=
  let t := pyLower text
  FAQS.findSome? (fun kv => if strContains t kv.1 then some kv.2 else none)

/-- One attempted match of `re.search(r"\bORD[- ]?(\d{3,6})\b", ·)` at
start position `i` of the (already upper-cased) character list `s`,
returning the captured digit group.

The regex at a fixed start position behaves as follows (justifying this
encoding): after `\bORD`, the greedy optional `[- ]?` consumes a following
`'-'` or `' '` when present (backtracking to the empty alternative cannot
help, since a separator character is not a digit); the greedy `\d{3,6}`
then consumes the maximal run of digits: if the run is longer than 6 the
trailing `\b` fails for every choice of 3–6 digits (the next character is
still a digit), and if it is shorter backtracking only moves the boundary
onto a digit, so the attempt succeeds iff the maximal digit run has length
3–6 and the character after the run is not a word character. -/
def ordMatchAt (s : List Char) (i : Nat) : Option (List Char) :=
  if boundaryAt s i && (['O', 'R', 'D'].isPrefixOf (s.drop i)) then
    let rest := s.drop (i + 3)
    let rest2 := match rest with
      | c :: tl => if c = '-' || c = ' ' then tl else rest
      | [] => rest
    let run := rest2.takeWhile (fun c => c.isDigit)
    if 3 ≤ run.length && run.length ≤ 6 then
      if wordCharAt rest2 run.length then none else some run
    else none
  else none

/-- The digit group of the leftmost match of `\bORD[- ]?(\d{3,6})\b` in `s`
(`re.search` semantics: earliest start position wins). -/
def firstOrdDigits (s : List Char) : Option (List Char) :=
  (List.range (s.length + 1)).findSome? (fun i => ordMatchAt s i)

/-- Source `extract_order_id`: search the upper-cased text for
`\bORD[- ]?(\d{3,6})\b` and return `"ORD-" + digits` of the first match. -/
def extract_order_id (text : String) : Option String :=
  (firstOrdDigits (pyUpper text).data).map (fun num => "ORD-" ++ String.mk num)

/-- Metadata mappings (`Dict[str, Any]` in the source, with the values the
policy ever stores or forwards modelled as strings), as insertion-ordered
association lists — the shape of a Python `dict`. -/
abbrev Metadata := List (String × String)

/-- Python `d[k] = v` on an insertion-ordered dict: overwrite the entry in
place when the key is present, else append it. -/
def dictSet : Metadata → String → String → Metadata
  | [], k, v => [(k, v)]
  | p :: rest, k, v =>
    if p.1 == k then (k, v) :: dictSet rest k v else p :: dictSet rest k v

/-- Python `d.get(k)`: value of the first entry with key `k`. -/
def dictGet (d : Metadata) (k : String) : Option String :=
  (d.find? (fun p => p.1 == k)).map Prod.snd

/-- Source dataclass `ModelSettings` (`tool_choice`, `metadata`);
`metadata : Dict[str, Any] = None`, hence the `Option`. -/
structure ModelSettings where
  tool_choice : String
  metadata : Option Metadata
deriving Repr, DecidableEq

/-- The `context` dict handed to the tool-enablement hook; the source reads
its keys with `dict.get` and a default, hence optional fields. -/
structure ToolContext where
  last_user_message : Option String
  customer_id : Option String
deriving Repr, DecidableEq

/-- Source `_order_tool_enabled`: order-lookup tool enabled iff the
context's `last_user_message` (default `""` when absent) has order intent. -/
def order_tool_enabled (context : ToolContext) : Bool :=
  let text := context.last_user_message.getD ""
  is_order_intent text

/-- The outcomes `handle_user_message` can produce, one constructor per
return site of the source: the `Handoff(...)` objects, the FAQ / default
plain-string replies, the clarification plain-string reply, and the
`bot_agent.run(...)` tool delegations (carrying the tool name, the order id
argument, and the `model_settings` dict passed to the run: its `tool_choice`
literal and its `metadata`). -/
inductive Action where
  | DirectAnswer (text : String)
  | HandoffRequest (reason : String) (last_user_message : String) (customer_id : String)
  | CapabilityInvocation (capability : String) (order_id : String)
      (tool_choice : String) (metadata : Metadata)
  | ClarificationRequest (prompt : String)
deriving Repr, DecidableEq

/-- Source line 212: reason of the negative-sentiment `Handoff`. -/
def negativeHandoffReason : String :=
  "Detected negative sentiment or offensive language. Human empathy required."

/-- Source line 240: reason of the required-tool-unusable `Handoff`. -/
def requiredHandoffReason : String :=
  "Order tool not available or order ID missing; requires human assistance."

/-- Source line 262: reason of the complexity `Handoff`. -/
def complexHandoffReason : String := "Complex or ambiguous request."

/-- Source line 254: the fixed ask-for-order-ID reply. -/
def clarifyOrderIdPrompt : String :=
  "Could you share your order ID (e.g., ORD-1001) so I can check the status?"

/-- Source lines 268-271: the fixed default helpful reply. -/
def defaultHelpText : String :=
  "I can help with order tracking (share your order ID like ORD-1001) or answer policies like shipping time, warranty, and returns."

/-- Tokenisation of Python `str.split()` (no argument): maximal runs of
non-whitespace characters; `acc` accumulates the current token reversed. -/
def splitWsAux : List Char → List Char → List (List Char)
  | [], acc => if acc.isEmpty then [] else [acc.reverse]
  | c :: rest, acc =>
    if c.isWhitespace then
      if acc.isEmpty then splitWsAux rest [] else acc.reverse :: splitWsAux rest []
    else splitWsAux rest (c :: acc)

/-- Source `len(message.split())`: number of whitespace-separated tokens. -/
def wordCount (s : String) : Nat := (splitWsAux s.data []).length

/-- Result of one routing call: the produced `Action` together with the
caller's `model_settings.metadata` mapping as it stands after the call.
The second field makes the source's aliasing observable: line 224 binds
`response_metadata = model_settings.metadata or {}`, which is the caller's
own dict object whenever the caller passed a non-empty mapping (Python `or`
yields a fresh `{}` for `None` and for an empty — falsy — dict), so line
225's `response_metadata["customer_id"] = customer_id` then mutates the
caller's mapping in place. -/
structure RouteResult where
  action : Action
  caller_metadata : Option Metadata
deriving Repr, DecidableEq

/-- Source `handle_user_message`: the routing policy.  Mirrors the source
branch for branch; `if faq_answer and not order_intent` is embedded as
`isSome && !order_intent` (every stored FAQ answer is a non-empty, hence
truthy, string), and the condition `_order_tool_enabled(ctx) and order_id`
of the required branch as the enablement test plus a match on `order_id`. -/
def handle_user_message (message : String) (customer_id : String)
    (model_settings : ModelSettings) : RouteResult :=
  let negative := is_negative_or_offensive message
  let order_intent := is_order_intent message
  let order_id := extract_order_id message
  if negative then
    { action := .HandoffRequest negativeHandoffReason message customer_id,
      caller_metadata := model_settings.metadata }
  else
    let faq_answer := match_faq message
    if faq_answer.isSome && !order_intent then
      { action := .DirectAnswer (faq_answer.getD ""),
        caller_metadata := model_settings.metadata }
    else
      let ctx : ToolContext :=
        { last_user_message := some message, customer_id := some customer_id }
      let base : Metadata := match model_settings.metadata with
        | none => []
        | some m => if m.isEmpty then [] else m
      let response_metadata := dictSet base "customer_id" customer_id
      let caller_after : Option Metadata := match model_settings.metadata with
        | none => none
        | some m => if m.isEmpty then some m else some (dictSet m "customer_id" customer_id)
      if order_intent then
        if model_settings.tool_choice == "required" then
          match order_id with
          | some oid =>
            if order_tool_enabled ctx then
              { action := .CapabilityInvocation "get_order_status" oid "required" response_metadata,
                caller_metadata := caller_after }
            else
              { action := .HandoffRequest requiredHandoffReason message customer_id,
                caller_metadata := caller_after }
          | none =>
            { action := .HandoffRequest requiredHandoffReason message customer_id,
              caller_metadata := caller_after }
        else
          match order_id with
          | some oid =>
            { action := .CapabilityInvocation "get_order_status" oid "auto" response_metadata,
              caller_metadata := caller_after }
          | none =>
            { action := .ClarificationRequest clarifyOrderIdPrompt,
              caller_metadata := caller_after }
      else if wordCount message > 40 || strContains (pyLower message) "complicated"
          || strContains (pyLower message) "legal" then
        { action := .HandoffRequest complexHandoffReason message customer_id,
          caller_metadata := caller_after }
      else
        { action := .DirectAnswer defaultHelpText,
          caller_metadata := caller_after }

/-! ## Claim theorems -/

/-- C1: every message classified negative/offensive is routed to a
`HandoffRequest` carrying the original message text and customer id,
whatever else the message contains (FAQ keys, order ids); since the result
is that handoff, no `DirectAnswer`, `CapabilityInvocation` or
`ClarificationRequest` is produced for such a message. -/
theorem negative_always_handoff (message customer_id : String) (ms : ModelSettings)
    (h : is_negative_or_offensive message = true) :
    (handle_user_message message customer_id ms).action =
      .HandoffRequest negativeHandoffReason message customer_id := by
  simp [handle_user_message, h]

theorem negative_always_handoff_witness :
    is_negative_or_offensive "I hate this! Track my order ORD-1003 and the return policy." = true ∧
    (handle_user_message "I hate this! Track my order ORD-1003 and the return policy."
        "CUST-123" ⟨"auto", none⟩).action =
      .HandoffRequest negativeHandoffReason
        "I hate this! Track my order ORD-1003 and the return policy." "CUST-123" :=
  ⟨by decide,
   negative_always_handoff "I hate this! Track my order ORD-1003 and the return policy."
     "CUST-123" ⟨"auto", none⟩ (by decide)⟩

/-- C2 counterexample: with the unrecognized `tool_choice` value `"bogus"`
the policy does not fail fast — it evaluates the routing rules and returns
the same ordinary Action as under `"auto"` (here the clarification reply
of rule 3b), i.e. it silently defaults. -/
theorem tool_choice_no_fail_fast_cex :
    handle_user_message "track my order" "CUST-1" ⟨"bogus", none⟩ =
      handle_user_message "track my order" "CUST-1" ⟨"auto", none⟩ ∧
    (handle_user_message "track my order" "CUST-1" ⟨"bogus", none⟩).action =
      .ClarificationRequest clarifyOrderIdPrompt := by
  exact ⟨by decide, by decide⟩

/-- C2 amended: the policy never rejects a malformed configuration; any
`tool_choice` value other than `"required"` (in particular any
unrecognized value) is silently treated exactly as `"auto"`. -/
theorem tool_choice_defaults_to_auto (message customer_id tc : String)
    (md : Option Metadata) (h : tc ≠ "required") :
    handle_user_message message customer_id ⟨tc, md⟩ =
      handle_user_message message customer_id ⟨"auto", md⟩ := by
  have h' : (tc == "required") = false := by
    simpa using h
  simp only [handle_user_message, h']
  rfl

theorem tool_choice_defaults_to_auto_witness :
    ("bogus" ≠ "required") ∧
    handle_user_message "status please" "CUST-2" ⟨"bogus", some [("channel", "web")]⟩ =
      handle_user_message "status please" "CUST-2" ⟨"auto", some [("channel", "web")]⟩ :=
  ⟨by decide,
   tool_choice_defaults_to_auto "status please" "CUST-2" "bogus"
     (some [("channel", "web")]) (by decide)⟩

/-- C5: a non-negative message with order intent but no extractable order
identifier, routed under `tool_choice = "required"`, yields the
required-capability-unusable `HandoffRequest` with the original message
text and customer id in context (hence never a `ClarificationRequest`). -/
theorem required_no_id_handoff (message customer_id : String) (md : Option Metadata)
    (hneg : is_negative_or_offensive message = false)
    (hint : is_order_intent message = true)
    (hid : extract_order_id message = none) :
    (handle_user_message message customer_id ⟨"required", md⟩).action =
      .HandoffRequest requiredHandoffReason message customer_id := by
  simp [handle_user_message, hneg, hint, hid]

theorem required_no_id_handoff_witness :
    is_negative_or_offensive "I want the status of my order" = false ∧
    is_order_intent "I want the status of my order" = true ∧
    extract_order_id "I want the status of my order" = none ∧
    (handle_user_message "I want the status of my order" "CUST-002"
        ⟨"required", none⟩).action =
      .HandoffRequest requiredHandoffReason "I want the status of my order" "CUST-002" :=
  ⟨by decide, by decide, by decide,
   required_no_id_handoff "I want the status of my order" "CUST-002" none
     (by decide) (by decide) (by decide)⟩

/-- C6: a non-negative message with order intent but no extractable order
identifier, routed under `tool_choice = "auto"`, yields the fixed
ask-for-order-ID `ClarificationRequest` (hence never a
`CapabilityInvocation` or `HandoffRequest`). -/
theorem auto_no_id_clarification (message customer_id : String) (md : Option Metadata)
    (hneg : is_negative_or_offensive message = false)
    (hint : is_order_intent message = true)
    (hid : extract_order_id message = none) :
    (handle_user_message message customer_id ⟨"auto", md⟩).action =
      .ClarificationRequest clarifyOrderIdPrompt := by
  simp [handle_user_message, hneg, hint, hid]

theorem auto_no_id_clarification_witness :
    is_negative_or_offensive "please track it for me" = false ∧
    is_order_intent "please track it for me" = true ∧
    extract_order_id "please track it for me" = none ∧
    (handle_user_message "please track it for me" "CUST-002" ⟨"auto", none⟩).action =
      .ClarificationRequest clarifyOrderIdPrompt :=
  ⟨by decide, by decide, by decide,
   auto_no_id_clarification "please track it for me" "CUST-002" none
     (by decide) (by decide) (by decide)⟩

/-- C9: routing is deterministic — two calls with identical message text,
customer id and configuration produce identical results (same Action
variant with all its fields, and the same caller-metadata outcome), the
backing FAQ and order tables being the fixed constants of the program. -/
theorem route_deterministic (m1 m2 c1 c2 : String) (s1 s2 : ModelSettings)
    (hm : m1 = m2) (hc : c1 = c2) (hs : s1 = s2) :
    handle_user_message m1 c1 s1 = handle_user_message m2 c2 s2 := by
  subst hm
  subst hc
  subst hs
  rfl

theorem route_deterministic_witness :
    handle_user_message "track ORD-1001" "CUST-7" ⟨"auto", none⟩ =
      handle_user_message "track ORD-1001" "CUST-7" ⟨"auto", none⟩ :=
  route_deterministic "track ORD-1001" "track ORD-1001" "CUST-7" "CUST-7"
    ⟨"auto", none⟩ ⟨"auto", none⟩ rfl rfl rfl

/-- C10: the capability gate reads only the context's `last_user_message`
(defaulting to `""` when absent) and equals `is_order_intent` of it; on the
context a routing call builds from its message, the gate therefore equals
`is_order_intent message`, so inside the order-intent branch the gate is
true and, under `tool_choice = "required"`, the handoff outcome is
equivalent to no order identifier having been extracted. -/
theorem gate_matches_intent (message customer_id : String) (md : Option Metadata)
    (hneg : is_negative_or_offensive message = false)
    (hint : is_order_intent message = true) :
    (∀ ctx : ToolContext,
        order_tool_enabled ctx = is_order_intent (ctx.last_user_message.getD "")) ∧
    order_tool_enabled ⟨some message, some customer_id⟩ = is_order_intent message ∧
    ((handle_user_message message customer_id ⟨"required", md⟩).action =
        .HandoffRequest requiredHandoffReason message customer_id ↔
      extract_order_id message = none) := by
  refine ⟨fun ctx => rfl, rfl, ?_⟩
  cases hid : extract_order_id message with
  | none => simp [handle_user_message, hneg, hint, hid]
  | some oid =>
    simp [handle_user_message, hneg, hint, hid, order_tool_enabled]

theorem gate_matches_intent_witness :
    order_tool_enabled ⟨some "track my order", some "CUST-3"⟩ =
      is_order_intent "track my order" :=
  (gate_matches_intent "track my order" "CUST-3" none (by decide) (by decide)).2.1

/-- If `findSome?` of the FAQ-style matcher over a table returns an answer,
the table splits as the non-matching entries, then a first matching entry
holding exactly that answer. -/
theorem findSome_faq_split (t : String) :
    ∀ (l : List (String × String)) (ans : String),
      l.findSome? (fun kv => if strContains t kv.1 then some kv.2 else none) = some ans →
      ∃ pre k rest, l = pre ++ (k, ans) :: rest ∧ strContains t k = true ∧
        ∀ p ∈ pre, strContains t p.1 = false := by
  intro l
  induction l with
  | nil => intro ans h; simp [List.findSome?] at h
  | cons hd tl ih =>
    intro ans h
    rw [List.findSome?] at h
    by_cases hc : strContains t hd.1 = true
    · rw [if_pos hc] at h
      simp only [Option.some.injEq] at h
      exact ⟨[], hd.1, tl, by simp [← h], hc, by simp⟩
    · rw [if_neg hc] at h
      simp only at h
      obtain ⟨pre, k, rest, he, hk, hpre⟩ := ih ans h
      refine ⟨hd :: pre, k, rest, by simp [he], hk, ?_⟩
      intro p hp
      rcases List.mem_cons.mp hp with h1 | h2
      · subst h1
        simpa using hc
      · exact hpre p h2

/-- C4: a message that is not negative/offensive, matches some FAQ topic
key (case-insensitively, as a substring) and has no order intent is
answered by a `DirectAnswer` whose text is the stored answer of the
first-declared matching topic: the FAQ table splits into earlier,
non-matching topics followed by the matching topic holding exactly the
returned answer. -/
theorem faq_direct_answer (message customer_id : String) (ms : ModelSettings)
    (ans : String)
    (hneg : is_negative_or_offensive message = false)
    (hfaq : match_faq message = some ans)
    (hint : is_order_intent message = false) :
    (handle_user_message message customer_id ms).action = .DirectAnswer ans ∧
    ∃ pre k rest, FAQS = pre ++ (k, ans) :: rest ∧
      strContains (pyLower message) k = true ∧
      ∀ p ∈ pre, strContains (pyLower message) p.1 = false := by
  constructor
  · simp [handle_user_message, hneg, hfaq, hint]
  · exact findSome_faq_split (pyLower message) FAQS ans hfaq

theorem faq_direct_answer_witness :
    (handle_user_message "What is your warranty and return policy?" "CUST-789"
        ⟨"auto", none⟩).action =
      .DirectAnswer "You can return unopened items within 30 days for a full refund." :=
  (faq_direct_answer "What is your warranty and return policy?" "CUST-789"
    ⟨"auto", none⟩ "You can return unopened items within 30 days for a full refund."
    (by decide) (by decide) (by decide)).1

/-- Setting a key makes it present with the new value. -/
theorem dictGet_dictSet_self (k v : String) :
    ∀ d : Metadata, dictGet (dictSet d k v) k = some v := by
  intro d
  induction d with
  | nil => simp [dictSet, dictGet, List.find?]
  | cons p rest ih =>
    by_cases h : p.1 == k
    · simp [dictSet, dictGet, List.find?, h]
    · simp only [dictSet, dictGet, List.find?] at *
      rw [if_neg (by simpa using h)]
      simpa [h] using ih

/-- What becomes of the caller's metadata mapping once line 225 of the
source has run: an absent (`None`) or empty mapping is untouched (Python
`or` replaced it by a fresh dict), a non-empty mapping is mutated in place,
receiving the `customer_id` entry. -/
def mutateMeta : Option Metadata → String → Option Metadata
  | none, _ => none
  | some m, cid => if m.isEmpty then some m else some (dictSet m "customer_id" cid)

/-- C3 counterexample: with the non-empty caller metadata
`{channel: web}`, the caller's mapping is changed by the call — the
augmentation is performed on the caller's own dict, not on a copy. -/
theorem caller_metadata_mutated_cex :
    (handle_user_message "track my order" "CUST-9"
        ⟨"auto", some [("channel", "web")]⟩).caller_metadata ≠
      some [("channel", "web")] := by
  decide

set_option maxHeartbeats 2000000 in
/-- C3 amended: in the metadata attached to every `CapabilityInvocation`
the `customer_id` key holds the call's customer id, overwriting any
caller-supplied value of that key; but the caller's `metadata` mapping is
not always unchanged: exactly when routing passes the negative and FAQ
early returns, a non-empty caller mapping is augmented in place with the
`customer_id` entry (an absent or empty mapping is left untouched). -/
theorem capability_metadata_customer_id (message customer_id : String)
    (ms : ModelSettings) :
    (∀ cap oid tc md,
        (handle_user_message message customer_id ms).action =
          .CapabilityInvocation cap oid tc md →
        dictGet md "customer_id" = some customer_id) ∧
    (handle_user_message message customer_id ms).caller_metadata =
      (if is_negative_or_offensive message
          || ((match_faq message).isSome && !is_order_intent message)
       then ms.metadata
       else mutateMeta ms.metadata customer_id) := by
  cases hneg : is_negative_or_offensive message <;>
    cases hfaq : match_faq message <;>
      cases hint : is_order_intent message <;>
        cases hid : extract_order_id message <;>
          cases hmd : ms.metadata <;>
            cases htc : ms.tool_choice == "required" <;>
              cases hwc : decide (40 < wordCount message) <;>
                cases hc1 : strContains (pyLower message) "complicated" <;>
                  cases hc2 : strContains (pyLower message) "legal" <;>
                    simp_all [handle_user_message, mutateMeta, order_tool_enabled,
                      dictGet_dictSet_self]
  all_goals
    first
      | (intro cap oid tc md h1 h2 h3 h4
         subst h4
         exact dictGet_dictSet_self _ _ _)
      | simp_all [Nat.not_lt.mpr hwc]

theorem capability_metadata_customer_id_witness :
    (handle_user_message "track ORD-1001" "CUST-9" ⟨"auto", some [("channel", "web")]⟩).action =
      .CapabilityInvocation "get_order_status" "ORD-1001" "auto"
        [("channel", "web"), ("customer_id", "CUST-9")] ∧
    dictGet [("channel", "web"), ("customer_id", "CUST-9")] "customer_id" = some "CUST-9" :=
  ⟨by decide,
   (capability_metadata_customer_id "track ORD-1001" "CUST-9"
       ⟨"auto", some [("channel", "web")]⟩).1
     "get_order_status" "ORD-1001" "auto" [("channel", "web"), ("customer_id", "CUST-9")]
     (by decide)⟩

theorem map_id_of_mem {α : Type} (f : α → α) :
    ∀ l : List α, (∀ a ∈ l, f a = a) → l.map f = l := by
  intro l
  induction l with
  | nil => intro _; rfl
  | cons a t ih =>
    intro h
    have ha := h a (by simp)
    have ht := ih (fun b hb => h b (by simp [hb]))
    simp [ha, ht]

theorem toLower_of_ws (c : Char) (h : c.isWhitespace = true) : c.toLower = c := by
  have h' : ((c = ' ' ∨ c = '\t') ∨ c = '\x0d') ∨ c = '\n' := by
    simpa [Char.isWhitespace] using h
  rcases h' with ((h' | h') | h') | h' <;> subst h' <;> decide

theorem pyLower_of_ws (s : String) (h : ∀ c ∈ s.data, c.isWhitespace = true) :
    pyLower s = s := by
  unfold pyLower
  rw [map_id_of_mem Char.toLower s.data (fun c hc => toLower_of_ws c (h c hc))]

theorem isWordChar_ws (c : Char) (h : c.isWhitespace = true) : isWordChar c = false := by
  have h' : ((c = ' ' ∨ c = '\t') ∨ c = '\x0d') ∨ c = '\n' := by
    simpa [Char.isWhitespace] using h
  rcases h' with ((h' | h') | h') | h' <;> subst h' <;> decide

theorem boundaryAt_no_word (s : List Char) (hs : ∀ c ∈ s, isWordChar c = false)
    (p : Nat) : boundaryAt s p = false := by
  have h2 : ∀ q, wordCharAt s q = false := by
    intro q
    unfold wordCharAt
    cases hq : s.get? q with
    | none => rfl
    | some c => exact hs c (List.get?_mem hq)
  unfold boundaryAt
  cases p <;> simp [h2]

theorem reWordSearch_no_word (t : String) (ht : ∀ c ∈ t.data, isWordChar c = false)
    (w : String) : reWordSearch t w = false := by
  unfold reWordSearch
  rw [List.any_eq_false]
  intro i _
  unfold wordMatchAt
  rw [boundaryAt_no_word t.data ht i]
  simp

theorem occursAt_false_of_ws (s : List Char) (hs : ∀ c ∈ s, c.isWhitespace = true)
    (w : List Char) (c0 : Char) (hw : w.head? = some c0)
    (hc : c0.isWhitespace = false) (i : Nat) : occursAt s w i = false := by
  unfold occursAt
  cases w with
  | nil => simp at hw
  | cons a w' =>
    simp at hw
    subst hw
    cases hd : s.drop i with
    | nil => rfl
    | cons d tl =>
      have hdm : d ∈ s := List.drop_subset i s (hd ▸ List.mem_cons_self d tl)
      have hdw := hs d hdm
      have hne : (a == d) = false := by
        apply beq_eq_false_iff_ne.mpr
        intro he
        rw [he, hdw] at hc
        simp at hc
      rw [show (a :: w').isPrefixOf (d :: tl) = (a == d && w'.isPrefixOf tl) from rfl,
        hne, Bool.false_and]

theorem strContains_false_of_ws (hay needle : String)
    (hs : ∀ c ∈ hay.data, c.isWhitespace = true) (c0 : Char)
    (hw : needle.data.head? = some c0) (hc : c0.isWhitespace = false) :
    strContains hay needle = false := by
  unfold strContains
  rw [List.any_eq_false]
  intro i _
  simp [occursAt_false_of_ws hay.data hs needle.data c0 hw hc i]

theorem splitWsAux_ws (s : List Char) (hs : ∀ c ∈ s, c.isWhitespace = true) :
    splitWsAux s [] = [] := by
  induction s with
  | nil => rfl
  | cons c t ih =>
    have hc := hs c (by simp)
    have ht := ih (fun b hb => hs b (by simp [hb]))
    simp [splitWsAux, hc, ht]

/-- C8: on a whitespace-only (e.g. empty) message every classifier returns
its negative result — word count 0, not negative/offensive, no FAQ match,
no order intent — so routing falls through every earlier rule and returns
the fixed generic-help `DirectAnswer` of the default branch. -/
theorem whitespace_message_default (message customer_id : String) (ms : ModelSettings)
    (hws : ∀ c ∈ message.data, c.isWhitespace = true) :
    wordCount message = 0 ∧
    is_negative_or_offensive message = false ∧
    match_faq message = none ∧
    is_order_intent message = false ∧
    (handle_user_message message customer_id ms).action = .DirectAnswer defaultHelpText := by
  have hlow : pyLower message = message := pyLower_of_ws message hws
  have hnw : ∀ c ∈ message.data, isWordChar c = false :=
    fun c hc => isWordChar_ws c (hws c hc)
  have hwc : wordCount message = 0 := by
    unfold wordCount
    rw [splitWsAux_ws message.data hws]
    rfl
  have hre : ∀ w : String, reWordSearch message w = false :=
    reWordSearch_no_word message hnw
  have hneg : is_negative_or_offensive message = false := by
    unfold is_negative_or_offensive
    rw [hlow]
    simp [OFFENSIVE_PATTERNS, NEGATIVE_SENTIMENT_PATTERNS, hre]
  have hcontain : ∀ (needle : String) (c0 : Char), needle.data.head? = some c0 →
      c0.isWhitespace = false → strContains message needle = false :=
    fun needle c0 h1 h2 => strContains_false_of_ws message needle hws c0 h1 h2
  have hfaq : match_faq message = none := by
    unfold match_faq
    rw [hlow]
    simp [FAQS, List.findSome?,
      hcontain "return policy" 'r' rfl (by decide),
      hcontain "shipping time" 's' rfl (by decide),
      hcontain "warranty" 'w' rfl (by decide)]
  have hint : is_order_intent message = false := by
    unfold is_order_intent
    rw [hlow]
    simp [hcontain "order" 'o' rfl (by decide),
      hcontain "track" 't' rfl (by decide),
      hcontain "status" 's' rfl (by decide)]
  refine ⟨hwc, hneg, hfaq, hint, ?_⟩
  simp [handle_user_message, hneg, hfaq, hint, hlow, hwc,
    hcontain "complicated" 'c' rfl (by decide),
    hcontain "legal" 'l' rfl (by decide)]

theorem whitespace_message_default_witness :
    wordCount " " = 0 ∧
    is_negative_or_offensive " " = false ∧
    match_faq " " = none ∧
    is_order_intent " " = false ∧
    (handle_user_message " " "CUST-0" ⟨"auto", none⟩).action = .DirectAnswer defaultHelpText :=
  whitespace_message_default " " "CUST-0" ⟨"auto", none⟩ (by decide)


/-- The ten ASCII digit characters. -/
def digitChars : List Char := ['0', '1', '2', '3', '4', '5', '6', '7', '8', '9']

theorem toUpper_digit (c : Char) (h : c ∈ digitChars) : c.toUpper = c := by
  fin_cases h <;> decide

theorem isDigit_of_mem_digitChars (c : Char) (h : c ∈ digitChars) : c.isDigit = true := by
  fin_cases h <;> decide

theorem isWordChar_of_isDigit (c : Char) (h : c.isDigit = true) : isWordChar c = true := by
  simp [isWordChar, Char.isAlphanum, h]

theorem findSome_range' {β : Type} (f : Nat → Option β) (v : β) :
    ∀ (n s k : Nat), k < n → (∀ i, i < k → f (s + i) = none) → f (s + k) = some v →
    (List.range' s n).findSome? f = some v := by
  intro n
  induction n with
  | zero => intro s k hk _ _; exact absurd hk (Nat.not_lt_zero k)
  | succ n ih =>
    intro s k hk hnone hv
    rw [List.range'_succ, List.findSome?_cons]
    cases k with
    | zero =>
      rw [Nat.add_zero] at hv
      rw [hv]
    | succ k =>
      have h0 : f s = none := by
        have h1 := hnone 0 (Nat.zero_lt_succ k)
        rwa [Nat.add_zero] at h1
      rw [h0]
      refine ih (s + 1) k (Nat.lt_of_succ_lt_succ hk) (fun i hi => ?_) ?_
      · have h2 := hnone (i + 1) (Nat.succ_lt_succ hi)
        rwa [show s + (i + 1) = s + 1 + i by omega] at h2
      · rwa [show s + (k + 1) = s + 1 + k by omega] at hv

theorem ordMatchAt_at_id (P Q ds : List Char)
    (hds : ∀ c ∈ ds, c.isDigit = true)
    (h3 : 3 ≤ ds.length) (h6 : ds.length ≤ 6)
    (hp : ∀ c ∈ P.getLast?, isWordChar c = false)
    (hq : ∀ c ∈ Q.head?, isWordChar c = false) :
    ordMatchAt (P ++ 'O' :: 'R' :: 'D' :: '-' :: (ds ++ Q)) P.length = some ds := by
  have hcur : wordCharAt (P ++ 'O' :: 'R' :: 'D' :: '-' :: (ds ++ Q)) P.length = true := by
    unfold wordCharAt
    rw [List.get?_append_right (Nat.le_refl _), Nat.sub_self]
    rfl
  have hb1 : boundaryAt (P ++ 'O' :: 'R' :: 'D' :: '-' :: (ds ++ Q)) P.length = true := by
    unfold boundaryAt
    rw [hcur]
    by_cases hP : P = []
    · subst hP
      rfl
    · have h0 : P.length ≠ 0 := fun h => hP (List.length_eq_zero.mp h)
      rw [if_neg h0]
      have hprev : wordCharAt (P ++ 'O' :: 'R' :: 'D' :: '-' :: (ds ++ Q)) (P.length - 1) = false := by
        unfold wordCharAt
        rw [List.get?_append (Nat.sub_lt (Nat.pos_of_ne_zero h0) Nat.one_pos)]
        rw [← List.getLast?_eq_get?]
        cases hL : P.getLast? with
        | none => rfl
        | some c => exact hp c (by simp [Option.mem_def, hL])
      rw [hprev]
      rfl
  have hprefix : (['O', 'R', 'D'].isPrefixOf
      ((P ++ 'O' :: 'R' :: 'D' :: '-' :: (ds ++ Q)).drop P.length)) = true := by
    rw [List.drop_left]
    rfl
  have hdrop3 : (P ++ 'O' :: 'R' :: 'D' :: '-' :: (ds ++ Q)).drop (P.length + 3) =
      '-' :: (ds ++ Q) := by
    have hsplit : P ++ 'O' :: 'R' :: 'D' :: '-' :: (ds ++ Q) =
        (P ++ ['O', 'R', 'D']) ++ ('-' :: (ds ++ Q)) := by simp
    rw [hsplit, List.drop_left' (by simp)]
  have hrun : (ds ++ Q).takeWhile (fun c => c.isDigit) = ds := by
    rw [List.takeWhile_append_of_pos hds]
    cases hQ : Q with
    | nil => simp
    | cons q t =>
      have hqd : q.isDigit = false := by
        have hw := hq q (by simp [Option.mem_def, hQ])
        cases hd : q.isDigit
        · rfl
        · rw [isWordChar_of_isDigit q hd] at hw
          simp at hw
      rw [List.takeWhile_cons_of_neg (by simp [hqd])]
      simp
  have hafter : wordCharAt (ds ++ Q) ds.length = false := by
    unfold wordCharAt
    rw [List.get?_append_right (Nat.le_refl _), Nat.sub_self]
    cases hQ : Q with
    | nil => rfl
    | cons q t =>
      have hw := hq q (by simp [Option.mem_def, hQ])
      simpa using hw
  unfold ordMatchAt
  rw [hb1, hprefix]
  simp [hdrop3, hrun, hafter, h3, h6]


theorem firstOrdDigits_split (P Q ds : List Char)
    (hds : ∀ c ∈ ds, c.isDigit = true)
    (h3 : 3 ≤ ds.length) (h6 : ds.length ≤ 6)
    (hp : ∀ c ∈ P.getLast?, isWordChar c = false)
    (hq : ∀ c ∈ Q.head?, isWordChar c = false)
    (hfirst : ∀ i, i < P.length →
      ordMatchAt (P ++ 'O' :: 'R' :: 'D' :: '-' :: (ds ++ Q)) i = none) :
    firstOrdDigits (P ++ 'O' :: 'R' :: 'D' :: '-' :: (ds ++ Q)) = some ds := by
  unfold firstOrdDigits
  rw [List.range_eq_range']
  refine findSome_range' _ ds _ 0 P.length ?_ ?_ ?_
  · simp [List.length_append]
    omega
  · intro i hi
    simpa using hfirst i hi
  · simpa using ordMatchAt_at_id P Q ds hds h3 h6 hp hq

/-- C7 amended: `extract_order_id` round-trips for a canonical identifier
`ORD-` followed by 3 to 6 digits embedded in surrounding text, provided the
embedding respects the regex word boundaries — the upper-cased preceding
text does not end in a word character, the upper-cased following text does
not start with one — and no candidate token matches at an earlier position
of the text (only the first match in the text is used); the result is the
canonical `ORD-<digits>` form. -/
theorem extract_order_id_round_trip (pre post : String) (ds : List Char)
    (hds : ∀ c ∈ ds, c ∈ digitChars)
    (h3 : 3 ≤ ds.length) (h6 : ds.length ≤ 6)
    (hpre : ∀ c ∈ (pyUpper pre).data.getLast?, isWordChar c = false)
    (hpost : ∀ c ∈ (pyUpper post).data.head?, isWordChar c = false)
    (hfirst : ∀ i, i < (pyUpper pre).data.length →
      ordMatchAt (pyUpper (pre ++ String.mk ('O' :: 'R' :: 'D' :: '-' :: ds) ++ post)).data i = none) :
    extract_order_id (pre ++ String.mk ('O' :: 'R' :: 'D' :: '-' :: ds) ++ post) =
      some ("ORD-" ++ String.mk ds) := by
  have hmid : ds.map Char.toUpper = ds :=
    map_id_of_mem _ ds (fun c hc => toUpper_digit c (hds c hc))
  have hdata : (pyUpper (pre ++ String.mk ('O' :: 'R' :: 'D' :: '-' :: ds) ++ post)).data
      = (pyUpper pre).data ++ 'O' :: 'R' :: 'D' :: '-' ::
          (ds ++ (pyUpper post).data) := by
    simp [pyUpper, String.data_append, hmid,
      (by decide : Char.toUpper 'O' = 'O'), (by decide : Char.toUpper 'R' = 'R'),
      (by decide : Char.toUpper 'D' = 'D'), (by decide : Char.toUpper '-' = '-')]
  rw [hdata] at hfirst
  unfold extract_order_id
  rw [hdata]
  rw [firstOrdDigits_split (pyUpper pre).data (pyUpper post).data ds
    (fun c hc => isDigit_of_mem_digitChars c (hds c hc)) h3 h6 hpre hpost hfirst]
  rfl

/-- C7 counterexample: the round-trip fails for arbitrary surrounding text —
with the canonical id `ORD-123` preceded by the word character `X`, the
regex word boundary before `ORD` fails and extraction returns nothing. -/
theorem extract_round_trip_cex :
    ¬ (extract_order_id ("X" ++ "ORD-123" ++ "") = some "ORD-123") := by
  decide

theorem extract_order_id_round_trip_witness :
    extract_order_id ("please check " ++ String.mk ('O' :: 'R' :: 'D' :: '-' :: ['1', '0', '0', '1']) ++ " now") =
      some ("ORD-" ++ String.mk ['1', '0', '0', '1']) :=
  extract_order_id_round_trip "please check " " now" ['1', '0', '0', '1']
    (by decide) (by decide) (by decide) (by decide) (by decide) (by decide)

end SmartSupportBot
